import Mathlib

/-!
Verification of the acs-patient-care-system repository: a shallow embedding of
the backend data model, route handlers and utility routines that the claims
refer to, followed by one theorem per claim.

Strings are modelled as Lean `String`s; the handful of string operations the
source uses (JavaScript `split`, `toLowerCase`, `includes`, SQLite BINARY
collation) are implemented here on `List Char` so that every definition is
executable and kernel-evaluable.  Timestamps stored by SQLite
(`DATETIME DEFAULT CURRENT_TIMESTAMP`) are `String`s of the shape
`YYYY-MM-DD HH:MM:SS`, compared byte-wise exactly as SQLite compares TEXT.
-/

namespace ACS

/-- JavaScript falsiness of an optional string value: `undefined`/`null` and
the empty string are falsy (`!x` is true). -/
def jsStrFalsy : Option String → Bool
  | none => true
  | some s => s = ""

/-- JavaScript `a || b` for an optional string `a` with a string default `b`. -/
def jsStrOr (a : Option String) (b : String) : String :=
  match a with
  | none => b
  | some s => if s = "" then b else s

/-- JavaScript `String.prototype.split` restricted to a single-character
separator, on character lists. -/
def splitOnChar (sep : Char) : List Char → List (List Char)
  | [] => [[]]
  | c :: rest =>
    let r := splitOnChar sep rest
    if c = sep then [] :: r
    else
      match r with
      | [] => [[c]]
      | g :: gs => (c :: g) :: gs

/-- ASCII lower-casing of one character, the fragment of JavaScript
`toLowerCase` exercised by the role strings of this system. -/
def charLower (c : Char) : Char :=
  if 65 ≤ c.toNat ∧ c.toNat ≤ 90 then Char.ofNat (c.toNat + 32) else c

/-- Lower-case a string (ASCII fragment of `toLowerCase`). -/
def lowerStr (s : String) : List Char := s.toList.map charLower

/-- Whether `needle` occurs as a contiguous substring of `hay`: JavaScript
`String.prototype.includes`. -/
def hasSubstring (needle : List Char) : List Char → Bool
  | [] => needle.isEmpty
  | c :: rest => needle.isPrefixOf (c :: rest) || hasSubstring needle rest

/-- Byte-wise lexicographic order on character lists, the SQLite BINARY
collation used for TEXT comparison (`BETWEEN` on `created_at` columns). -/
def lexLe : List Char → List Char → Bool
  | [], _ => true
  | _ :: _, [] => false
  | a :: as, b :: bs => if a = b then lexLe as bs else decide (a.toNat < b.toNat)

/-- SQLite TEXT `<=`. -/
def strLe (a b : String) : Bool := lexLe a.toList b.toList

/-- The whitespace class `\s` of the JavaScript e-mail regular expression
(only ASCII whitespace is relevant to the inputs of this system). -/
def isJsWhitespace (c : Char) : Bool :=
  c = ' ' ∨ c = '\t' ∨ c = '\n' ∨ c = '\r' ∨ c = '\x0b' ∨ c = '\x0c'

/-! ## Data model (src/lib/database, translated from part_006) -/

/-- `UserRole` enum: `patient`, `doctor`, `admin`, `quality`. -/
inductive UserRole
  | patient
  | doctor
  | admin
  | quality
deriving DecidableEq, Repr

/-- The string stored in the `role` column for each enum member. -/
def roleToString : UserRole → String
  | .patient => "patient"
  | .doctor => "doctor"
  | .admin => "admin"
  | .quality => "quality"

/-- `ConversationType` enum: `1to1` (patient to specific doctor) and `1toN`
(patient to any doctor). -/
inductive ConversationType
  | one_to_one
  | one_to_many
deriving DecidableEq, Repr

/-- `ConversationStatus` enum. -/
inductive ConversationStatus
  | active
  | readonly
  | archived
deriving DecidableEq, Repr

/-- A row of the `users` table.  The password hash is never observed by any
claim and is not modelled. -/
structure User where
  id : Nat
  email : String
  role : UserRole
  display_name : String
deriving DecidableEq, Repr

/-- A row of the `conversations` table. -/
structure Conversation where
  id : Nat
  title : String
  type : ConversationType
  creator_id : Nat
  status : ConversationStatus
  thread_id : String
  assigned_doctor_id : Option Nat
  created_at : String
deriving DecidableEq, Repr

/-- A row of the `conversation_participants` table (the `joined_at` column is
not observed by any claim). -/
structure Participant where
  conversation_id : Nat
  user_id : Nat
deriving DecidableEq, Repr

/-- A row of the `conversation_metadata` table. -/
structure MetaRow where
  conversation_id : Nat
  key : String
  value : String
deriving DecidableEq, Repr

/-- A row of the `attachments` table. -/
structure AttachmentRow where
  id : Nat
  conversation_id : Nat
  uploader_id : Nat
  original_filename : String
  stored_filename : String
  file_size : Nat
  file_type : String
  container_name : String
  created_at : String
deriving DecidableEq, Repr

/-- The single-file SQLite database, plus the AUTOINCREMENT counters of the
two tables whose generated ids the handlers read back. -/
structure Db where
  users : List User
  conversations : List Conversation
  participants : List Participant
  metadata : List MetaRow
  attachments : List AttachmentRow
  nextUserId : Nat
  nextConversationId : Nat
  nextAttachmentId : Nat
deriving DecidableEq, Repr

/-- `DatabaseService.getUserByEmail`. -/
def getUserByEmail (db : Db) (email : String) : Option User :=
  db.users.find? (fun u => u.email = email)

/-- `DatabaseService.getUserById`. -/
def getUserById (db : Db) (id : Nat) : Option User :=
  db.users.find? (fun u => u.id = id)

/-- `DatabaseService.createUser`: inserts a row and resolves with the
generated id. -/
def createUser (db : Db) (email : String) (role : UserRole) (displayName : String) :
    Db × Nat :=
  let uid := db.nextUserId
  ({ db with
      users := db.users ++ [{ id := uid, email := email, role := role, display_name := displayName }]
      nextUserId := uid + 1 },
   uid)

/-- `DatabaseService.getConversationById`. -/
def getConversationById (db : Db) (id : Nat) : Option Conversation :=
  db.conversations.find? (fun c => c.id = id)

/-- `DatabaseService.getConversationParticipants`: the users joined through
the `conversation_participants` rows of one conversation. -/
def getConversationParticipants (db : Db) (conversationId : Nat) : List User :=
  db.users.filter (fun u =>
    db.participants.any (fun p => p.conversation_id = conversationId ∧ p.user_id = u.id))

/-- `DatabaseService.createConversation`: inserts a row (status defaults to
`active`, `created_at` to the current timestamp) and resolves with the id. -/
def createConversation (db : Db) (title : String) (type : ConversationType)
    (creatorId : Nat) (threadId : String) (assignedDoctorId : Option Nat)
    (now : String) : Db × Nat :=
  let cid := db.nextConversationId
  ({ db with
      conversations := db.conversations ++
        [{ id := cid, title := title, type := type, creator_id := creatorId,
           status := .active, thread_id := threadId,
           assigned_doctor_id := assignedDoctorId, created_at := now }]
      nextConversationId := cid + 1 },
   cid)

/-- `DatabaseService.addParticipantToConversation`: `INSERT OR IGNORE`, a
duplicate pair is a no-op. -/
def addParticipantToConversation (db : Db) (conversationId userId : Nat) : Db :=
  if db.participants.any (fun p => p.conversation_id = conversationId ∧ p.user_id = userId) then
    db
  else
    { db with participants := db.participants ++ [⟨conversationId, userId⟩] }

/-- `DatabaseService.addConversationParticipant`: a plain `INSERT`; a
duplicate pair violates the UNIQUE constraint and rejects, which the caller
in the shared routine catches and ignores, so the effect is again a no-op. -/
def addConversationParticipant (db : Db) (conversationId userId : Nat) : Db :=
  addParticipantToConversation db conversationId userId

/-- `DatabaseService.addConversationMetadata`. -/
def addConversationMetadata (db : Db) (conversationId : Nat) (key value : String) : Db :=
  { db with metadata := db.metadata ++ [⟨conversationId, key, value⟩] }

/-- `DatabaseService.deleteConversation`: deletes, in order, the participant
rows, metadata rows and attachment rows of the conversation, then the
conversation row itself. -/
def deleteConversation (db : Db) (id : Nat) : Db :=
  { db with
      participants := db.participants.filter (fun p => ¬ p.conversation_id = id)
      metadata := db.metadata.filter (fun m => ¬ m.conversation_id = id)
      attachments := db.attachments.filter (fun a => ¬ a.conversation_id = id)
      conversations := db.conversations.filter (fun c => ¬ c.id = id) }

/-- `DatabaseService.getConversationsByUserId`: conversations where the user
is creator or participant (the `ORDER BY created_at DESC` ordering is not
observed by any claim and is not modelled). -/
def getConversationsByUserId (db : Db) (userId : Nat) : List Conversation :=
  db.conversations.filter (fun c =>
    c.creator_id = userId ∨
    db.participants.any (fun p => p.conversation_id = c.id ∧ p.user_id = userId))

/-- `DatabaseService.getConversationsForDoctor`: unassigned `1toN`
conversations, conversations assigned to the doctor, and joined ones. -/
def getConversationsForDoctor (db : Db) (doctorId : Nat) : List Conversation :=
  db.conversations.filter (fun c =>
    (c.type = .one_to_many ∧ c.assigned_doctor_id = none) ∨
    c.assigned_doctor_id = some doctorId ∨
    db.participants.any (fun p => p.conversation_id = c.id ∧ p.user_id = doctorId))

/-- `DatabaseService.getAllConversations`. -/
def getAllConversations (db : Db) : List Conversation :=
  db.conversations

/-! ## Auth service and auth routes (src/Server/src/lib/auth.ts,
src/Server/src/routes/auth.ts) -/

/-- The claims object embedded in a session token by `generateToken`. -/
structure TokenClaims where
  id : Nat
  email : String
  role : UserRole
  display_name : String
deriving DecidableEq, Repr

/-- A presented bearer token, abstracting the JWT: its decoded claims, whether
its signature verifies against the process secret, and whether it is past its
24-hour expiry. -/
structure BearerToken where
  claims : TokenClaims
  signatureValid : Bool
  expired : Bool
deriving DecidableEq, Repr

/-- `AuthService.verifyToken`: returns the decoded claims when signature and
expiry check out, and throws (here: `none`) on any failure. -/
def verifyToken (t : BearerToken) : Option TokenClaims :=
  if t.signatureValid ∧ ¬ t.expired then some t.claims else none

/-- One HTTP response: status code, message of the failure envelope when the
handler sends one, and an optional payload. -/
structure Response (α : Type) where
  status : Nat
  message : Option String
  payload : Option α
deriving DecidableEq, Repr

/-- Outcome of the `authenticateToken` middleware: either the request
proceeds with the loaded user attached, or it is rejected with a status and
message. -/
inductive AuthOutcome
  | ok (user : User)
  | reject (status : Nat) (message : String)
deriving DecidableEq, Repr

/-- The `authenticateToken` middleware: extracts the bearer token, verifies
it, then loads the user row named by the token id from the store, rejecting
with 401 when that row no longer exists. -/
def authenticateToken (db : Db) (token : Option BearerToken) : AuthOutcome :=
  match token with
  | none => .reject 401 "Access token required"
  | some t =>
    match verifyToken t with
    | none => .reject 403 "Invalid token"
    | some claims =>
      match getUserById db claims.id with
      | none => .reject 401 "User not found"
      | some u => .ok u

/-- `GET /auth/verify`: decodes and validates the token and answers 200 with
the claims; the persistent store is not consulted (the `db` argument is
unused by the handler body, mirroring the source). -/
def authVerifyRoute (_db : Db) (token : Option BearerToken) : Response TokenClaims :=
  match token with
  | none => { status := 401, message := some "No token provided", payload := none }
  | some t =>
    match verifyToken t with
    | none => { status := 401, message := some "Invalid token", payload := none }
    | some claims => { status := 200, message := none, payload := some claims }

/-- The `role` strings accepted by registration: `Object.values(UserRole)`. -/
def VALID_ROLE_STRINGS : List String := ["patient", "doctor", "admin", "quality"]

/-- Parse a validated role string back into the enum (total on the four valid
strings; the default branch is unreachable after validation). -/
def roleOfString (s : String) : UserRole :=
  if s = "patient" then .patient
  else if s = "doctor" then .doctor
  else if s = "admin" then .admin
  else .quality

/-- The registration e-mail test `/^[^\s@]+@[^\s@]+\.[^\s@]+$/`: the string
splits at a unique `@` into a non-empty local part without whitespace and a
domain that is non-empty, whitespace-free and contains a dot that is neither
its first nor its last character.  Splitting on `@` yields exactly two parts
precisely when the string has exactly one `@`, and both regex character
classes exclude `@`, so this split-based test is the regex. -/
def emailRegexTest (s : String) : Bool :=
  match splitOnChar '@' s.toList with
  | [localPart, domain] =>
    ¬ localPart.isEmpty ∧ localPart.all (fun c => ¬ isJsWhitespace c) ∧
    ¬ domain.isEmpty ∧ domain.all (fun c => ¬ isJsWhitespace c) ∧
    ((domain.drop 1).dropLast).contains '.'
  | _ => false

/-- The body of `POST /auth/register`. -/
structure RegisterReq where
  email : Option String
  password : Option String
  role : Option String
  display_name : Option String
deriving DecidableEq, Repr

/-- The public user fields returned on successful registration. -/
structure PublicUser where
  id : Nat
  email : String
  role : String
  display_name : String
deriving DecidableEq, Repr

/-- `POST /auth/register`: field-presence, role, e-mail-pattern and
password-length validation in the route, then `AuthService.register`
(duplicate e-mail → 400, otherwise create the user and answer 201 with its
public fields). -/
def registerRoute (db : Db) (req : RegisterReq) : Response PublicUser × Db :=
  if jsStrFalsy req.email ∨ jsStrFalsy req.password ∨
     jsStrFalsy req.role ∨ jsStrFalsy req.display_name then
    ({ status := 400, message := some "All fields are required", payload := none }, db)
  else
    let email := req.email.getD ""
    let password := req.password.getD ""
    let role := req.role.getD ""
    let displayName := req.display_name.getD ""
    if ¬ role ∈ VALID_ROLE_STRINGS then
      ({ status := 400, message := some "Invalid role", payload := none }, db)
    else if ¬ emailRegexTest email then
      ({ status := 400, message := some "Invalid email format", payload := none }, db)
    else if password.length < 6 then
      ({ status := 400,
         message := some "Password must be at least 6 characters long", payload := none }, db)
    else if (getUserByEmail db email).isSome then
      ({ status := 400, message := some "User already exists", payload := none }, db)
    else
      let (db2, uid) := createUser db email (roleOfString role) displayName
      match getUserById db2 uid with
      | none =>
        ({ status := 400, message := some "Failed to create user", payload := none }, db2)
      | some u =>
        ({ status := 201, message := none,
           payload := some { id := u.id, email := u.email, role := roleToString u.role,
                             display_name := u.display_name } }, db2)

/-! ## Attachment upload route (src/Server/src/routes/attachments.ts) -/

/-- The fixed MIME allow-list `ALLOWED_FILE_TYPES`. -/
def ALLOWED_FILE_TYPES : List String :=
  ["image/jpeg", "image/jpg", "image/png", "image/gif",
   "application/pdf", "application/msword",
   "application/vnd.openxmlformats-officedocument.wordprocessingml.document",
   "text/plain", "text/csv", "application/vnd.ms-excel",
   "application/vnd.openxmlformats-officedocument.spreadsheetml.sheet",
   "audio/mpeg", "audio/wav", "audio/ogg", "audio/mp3", "audio/webm", "audio/mp4"]

/-- `MAX_FILE_SIZE`: 50 MiB. -/
def MAX_FILE_SIZE : Nat := 50 * 1024 * 1024

/-- The multipart file object the upload handler receives. -/
structure UploadFile where
  originalname : String
  size : Nat
  mimetype : String
deriving DecidableEq, Repr

/-- The conversation-access check shared by the attachment routes:
administrator, participant, creator, or the doctor assigned to the
conversation. -/
def hasConversationAccess (db : Db) (user : User) (conv : Conversation) : Prop :=
  user.role = .admin ∨
  (∃ p ∈ getConversationParticipants db conv.id, p.id = user.id) ∨
  conv.creator_id = user.id ∨
  (user.role = .doctor ∧ conv.assigned_doctor_id = some user.id)

instance (db : Db) (user : User) (conv : Conversation) :
    Decidable (hasConversationAccess db user conv) := by
  unfold hasConversationAccess
  infer_instance

/-- `DatabaseService.createAttachment`. -/
def createAttachment (db : Db) (conversationId uploaderId : Nat)
    (originalFilename storedFilename : String) (fileSize : Nat)
    (fileType containerName now : String) : Db × Nat :=
  let aid := db.nextAttachmentId
  ({ db with
      attachments := db.attachments ++
        [{ id := aid, conversation_id := conversationId, uploader_id := uploaderId,
           original_filename := originalFilename, stored_filename := storedFilename,
           file_size := fileSize, file_type := fileType,
           container_name := containerName, created_at := now }]
      nextAttachmentId := aid + 1 },
   aid)

/-- `POST /attachments/upload/:conversationId`.  `conversationId = none`
models a non-numeric path parameter (`parseInt` gave `NaN`); `file = none` a
request without a file field.  `blobConfigured` and `blobUploadOk` stand for
the object-storage connection string resolving and the remote upload
succeeding — both external effects; either failing yields 500 without
persisting a record.  `storedFilename` stands for the generated
collision-resistant name (built from the clock and a random suffix in the
source). -/
def uploadAttachmentRoute (db : Db) (user : User) (conversationId : Option Nat)
    (file : Option UploadFile) (blobConfigured blobUploadOk : Bool)
    (storedFilename now : String) : Response Nat × Db :=
  match conversationId with
  | none => ({ status := 400, message := some "Invalid conversation ID", payload := none }, db)
  | some cid =>
    match file with
    | none => ({ status := 400, message := some "No file provided", payload := none }, db)
    | some f =>
      if f.size > MAX_FILE_SIZE then
        ({ status := 400, message := some "File size exceeds 50MB limit", payload := none }, db)
      else if ¬ f.mimetype ∈ ALLOWED_FILE_TYPES then
        ({ status := 400, message := some "File type not allowed", payload := none }, db)
      else
        match getConversationById db cid with
        | none =>
          ({ status := 404, message := some "Conversation not found", payload := none }, db)
        | some conv =>
          if hasConversationAccess db user conv then
            if ¬ blobConfigured then
              ({ status := 500, message := some "Azure Blob Storage not configured",
                 payload := none }, db)
            else if ¬ blobUploadOk then
              ({ status := 500, message := some "Failed to upload file", payload := none }, db)
            else
              let containerName := "conversation-" ++ toString cid
              let (db2, aid) := createAttachment db cid user.id f.originalname
                storedFilename f.size f.mimetype containerName now
              ({ status := 201, message := none, payload := some aid }, db2)
          else
            ({ status := 403, message := some "Access denied", payload := none }, db)

/-! ## Conversation routes (translated from part_001) -/

/-- The enriched conversation shape returned by the list and detail routes:
the row plus creator summary `(id, display_name, email)`, assigned-doctor
summary `(id, display_name)` and participant summaries
`(id, display_name, role)`. -/
structure EnrichedConversation where
  conversation : Conversation
  creator : Option (Nat × String × String)
  assigned_doctor : Option (Nat × String)
  participants : List (Nat × String × UserRole)
deriving DecidableEq, Repr

/-- The per-conversation enrichment step of `GET /conversations`. -/
def enrichConversation (db : Db) (c : Conversation) : EnrichedConversation :=
  { conversation := c
    creator := (getUserById db c.creator_id).map (fun u => (u.id, u.display_name, u.email))
    assigned_doctor :=
      match c.assigned_doctor_id with
      | none => none
      | some did => (getUserById db did).map (fun u => (u.id, u.display_name))
    participants :=
      (getConversationParticipants db c.id).map (fun p => (p.id, p.display_name, p.role)) }

/-- `GET /conversations`: the role dispatch assigns the conversation list for
the patient, doctor and admin roles only; for the quality role (admitted by
the `requireAnyRole` gate) the variable stays undefined, the later
`conversations!.map` dereference throws, and the catch block answers 500
with "Failed to get conversations". -/
def getConversationsRoute (db : Db) (user : User) : Response (List EnrichedConversation) :=
  let conversations : Option (List Conversation) :=
    if user.role = .patient then some (getConversationsByUserId db user.id)
    else if user.role = .doctor then some (getConversationsForDoctor db user.id)
    else if user.role = .admin then some (getAllConversations db)
    else none
  match conversations with
  | none =>
    { status := 500, message := some "Failed to get conversations", payload := none }
  | some l =>
    { status := 200, message := none, payload := some (l.map (enrichConversation db)) }

/-- The body of `POST /conversations`. -/
structure CreateConversationReq where
  title : Option String
  type : Option String
  assigned_doctor_id : Option Nat
deriving DecidableEq, Repr

/-- The strings of `Object.values(ConversationType)`. -/
def VALID_CONVERSATION_TYPE_STRINGS : List String := ["1to1", "1toN"]

/-- Enum member for a validated conversation-type string. -/
def conversationTypeOfString (s : String) : ConversationType :=
  if s = "1to1" then .one_to_one else .one_to_many

/-- `POST /conversations` (behind `authenticateToken` and `requirePatient`).
`threadId` stands for the id the chat-thread adapter returns; it is created
only after all validation passes, and the adapter's demo fallback means it
is non-empty in practice (the empty string models the `!threadId` guard).
Answers with the created conversation id. -/
def createConversationRoute (db : Db) (user : User) (req : CreateConversationReq)
    (threadId now : String) : Response Nat × Db :=
  if ¬ user.role = .patient then
    ({ status := 403, message := some "Insufficient permissions", payload := none }, db)
  else if jsStrFalsy req.title ∨ jsStrFalsy req.type then
    ({ status := 400, message := some "Title and type are required", payload := none }, db)
  else
    let typeStr := req.type.getD ""
    if ¬ typeStr ∈ VALID_CONVERSATION_TYPE_STRINGS then
      ({ status := 400, message := some "Invalid conversation type", payload := none }, db)
    else
      let ctype := conversationTypeOfString typeStr
      -- for a 1:1 conversation, `!assigned_doctor_id` (absent or the falsy 0)
      -- and a lookup that yields no doctor-role user are both 400
      if ctype = .one_to_one ∧ req.assigned_doctor_id.getD 0 = 0 then
        ({ status := 400, message := some "Doctor assignment required for 1:1 conversations",
           payload := none }, db)
      else if ctype = .one_to_one ∧
          ¬ (∃ d, getUserById db (req.assigned_doctor_id.getD 0) = some d ∧ d.role = .doctor) then
        ({ status := 400, message := some "Invalid doctor assignment", payload := none }, db)
      else if threadId = "" then
        ({ status := 500, message := some "Failed to create chat thread", payload := none }, db)
      else
        let (db2, cid) :=
          createConversation db (req.title.getD "") ctype user.id threadId
            req.assigned_doctor_id now
        let db3 := addParticipantToConversation db2 cid user.id
        let db4 :=
          if ctype = .one_to_one ∧ ¬ req.assigned_doctor_id.getD 0 = 0 then
            addParticipantToConversation db3 cid (req.assigned_doctor_id.getD 0)
          else db3
        ({ status := 201, message := none, payload := some cid }, db4)

/-- `DELETE /conversations/:id` (behind `authenticateToken` and
`requireDoctorOrAdmin`): the gate, the numeric-id check, the existence
check, then the cascading delete. -/
def deleteConversationRoute (db : Db) (user : User) (conversationId : Option Nat) :
    Response Unit × Db :=
  if ¬ (user.role = .doctor ∨ user.role = .admin) then
    ({ status := 403, message := some "Insufficient permissions", payload := none }, db)
  else
    match conversationId with
    | none =>
      ({ status := 400, message := some "Invalid conversation ID", payload := none }, db)
    | some cid =>
      match getConversationById db cid with
      | none =>
        ({ status := 404, message := some "Conversation not found", payload := none }, db)
      | some _ =>
        ({ status := 200, message := some "Conversation deleted successfully",
           payload := none }, deleteConversation db cid)

/-! ## RocketChat exporter pagination
(src/Server/src/lib/rocketchat-exporter.ts) -/

/-- A RocketChat message; `ts` is its timestamp (epoch milliseconds, as
produced by `new Date(m.ts).getTime()` in the sort comparator). -/
structure RocketChatMessage where
  id : String
  ts : Int
deriving DecidableEq, Repr

/-- Timestamp order on messages, the comparator of the final sort. -/
def tsLe (a b : RocketChatMessage) : Prop := a.ts ≤ b.ts

instance : DecidableRel tsLe := fun a b => inferInstanceAs (Decidable (a.ts ≤ b.ts))

instance : IsTotal RocketChatMessage tsLe := ⟨fun a b => Int.le_total a.ts b.ts⟩

instance : IsTrans RocketChatMessage tsLe := ⟨fun _ _ _ h1 h2 => le_trans h1 h2⟩

/-- The ascending-by-timestamp sort applied before returning. -/
def sortMessagesByTs (l : List RocketChatMessage) : List RocketChatMessage :=
  l.insertionSort tsLe

/-- The body of the `while (true)` paging loop of `getAllMessagesFromRoom`:
fetch a batch, stop on an empty batch, append, stop when the batch is
shorter than the page size of 1000, otherwise continue from the oldest
message of the batch.  A mock backend is abstracted as the sequence of
batches it answers: `backend i` is the response to the i-th request (whose
`oldest` parameter the loop derives from batch `i - 1`).  The loop is given
as fuel-indexed recursion; with fuel past the first short batch the fuel
never runs out. -/
def getAllMessagesAux (backend : Nat → List RocketChatMessage) :
    Nat → Nat → List RocketChatMessage → List RocketChatMessage
  | 0, _, acc => acc
  | fuel + 1, i, acc =>
    let messages := backend i
    if messages.length = 0 then acc
    else if messages.length < 1000 then acc ++ messages
    else getAllMessagesAux backend fuel (i + 1) (acc ++ messages)

/-- `getAllMessagesFromRoom` for a mock backend that eventually answers a
batch shorter than 1000 messages: run the paging loop (the hypothesis bounds
the number of iterations), then sort ascending by timestamp. -/
def getAllMessagesFromRoom (backend : Nat → List RocketChatMessage)
    (h : ∃ n, (backend n).length < 1000) : List RocketChatMessage :=
  sortMessagesByTs (getAllMessagesAux backend (Nat.find h + 1) 0 [])

/-! ## Analytics range aggregate (`DatabaseService.getAnalytics`,
translated from part_006) -/

/-- One row of the `GROUP BY DATE(created_at)` query. -/
structure DayBucket where
  date : String
  count : Nat
deriving DecidableEq, Repr

/-- SQLite `DATE(created_at)` on the stored `YYYY-MM-DD HH:MM:SS` text: the
date prefix. -/
def sqlDateOf (createdAt : String) : String :=
  String.mk (createdAt.toList.take 10)

/-- The `dateFilter` clause: `created_at BETWEEN startDate AND endDate`
(inclusive TEXT comparison) when both bounds are supplied, no filter
otherwise. -/
def inDateRange (startDate endDate : Option String) (createdAt : String) : Bool :=
  match startDate, endDate with
  | some s, some e => strLe s createdAt && strLe createdAt e
  | _, _ => true

/-- The conversations-per-day query: one bucket per distinct day among the
filtered rows, with that day's row count (the `ORDER BY date DESC` ordering
is not observed by any claim). -/
def conversationsPerDayBuckets (rows : List Conversation) : List DayBucket :=
  ((rows.map (fun r => sqlDateOf r.created_at)).dedup).map
    (fun d => { date := d,
                count := (rows.filter (fun r => sqlDateOf r.created_at = d)).length })

/-- JavaScript `Math.round(x * 100) / 100`, the two-decimal rounding of the
average (`Math.round` rounds half toward positive infinity). -/
def jsRound2 (q : ℚ) : ℚ := ((⌊q * 100 + 1 / 2⌋ : ℤ) : ℚ) / 100

/-- The fields of the range aggregate that the claims observe.  The other
five concurrent queries (`openConversations`, `onHoldConversations`,
`totalVisitors`, `busiestDay`, `busiestTime`/`conversationsByHour`,
`conversationsByStatus`) are not observed by any claim and are not
modelled. -/
structure RangeAnalytics where
  totalConversations : Nat
  conversationsPerDay : List DayBucket
  avgConversationsPerDay : ℚ
deriving DecidableEq, Repr

/-- `DatabaseService.getAnalytics(startDate?, endDate?)`: the total-count
query and the per-day query, each with the same optional date filter, plus
the arithmetic mean of the per-day counts rounded to two decimals (`0` when
there are no buckets). -/
def getAnalytics (db : Db) (startDate endDate : Option String) : RangeAnalytics :=
  let filtered := db.conversations.filter (fun c => inDateRange startDate endDate c.created_at)
  let dayRows := conversationsPerDayBuckets filtered
  let avg : ℚ :=
    if 0 < dayRows.length then
      ((dayRows.map (fun b => b.count)).sum : ℚ) / (dayRows.length : ℚ)
    else 0
  { totalConversations := filtered.length
    conversationsPerDay := dayRows
    avgConversationsPerDay := jsRound2 avg }

/-! ## Shared conversation-import routine (translated from part_002) -/

/-- A participant entry of a conversation bundle. -/
structure ImportParticipant where
  username : String
  display_name : String
  email : String
  role : String
deriving DecidableEq, Repr

/-- A message entry of a conversation bundle (only its presence and the
array length are observed). -/
structure ImportMessage where
  id : String
  content : String
deriving DecidableEq, Repr

/-- One conversation bundle of the interchange format.  Absent JSON fields
are `none`. -/
structure ImportBundle where
  source : Option String
  source_id : Option String
  title : Option String
  type : Option String
  participants : Option (List ImportParticipant)
  messages : Option (List ImportMessage)
  message_count : Option Nat
deriving DecidableEq, Repr

/-- `mapRole`: case-insensitive substring mapping of a bundle role string to
a system role. -/
def mapRole (role : String) : UserRole :=
  let r := lowerStr role
  if hasSubstring "admin".toList r then .admin
  else if hasSubstring "doctor".toList r ∨ hasSubstring "dr".toList r then .doctor
  else if hasSubstring "quality".toList r then .quality
  else .patient

/-- The aggregate result of an import run. -/
structure ImportResults where
  successful : Nat
  failed : Nat
  errors : List (String × String)
  createdUsers : List (String × String)
  skippedUsers : List (String × String)
deriving DecidableEq, Repr

/-- The zero-initialised results object. -/
def emptyImportResults : ImportResults :=
  { successful := 0, failed := 0, errors := [], createdUsers := [], skippedUsers := [] }

/-- The per-participant loop of the shared routine: look the participant up
by e-mail; create it with the mapped role when absent (recording a created
user) or record it as skipped when present; collect the resolved user id;
and remember the id of any doctor-role resolved user in `doctorId`
(overwriting the previous value, so the final value is the last doctor
encountered). -/
def participantLoop (db : Db) (res : ImportResults) (ids : List Nat)
    (doctorId : Option Nat) :
    List ImportParticipant → Db × ImportResults × List Nat × Option Nat
  | [] => (db, res, ids, doctorId)
  | p :: rest =>
    match getUserByEmail db p.email with
    | some u =>
      participantLoop db
        { res with skippedUsers := res.skippedUsers ++ [(p.email, "User already exists")] }
        (ids ++ [u.id])
        (if u.role = .doctor then some u.id else doctorId)
        rest
    | none =>
      -- create the user, then re-read the row by id as the source does;
      -- the id and the doctor check use the re-read row
      let role := mapRole p.role
      let s := createUser db p.email role p.display_name
      let res2 := { res with createdUsers := res.createdUsers ++ [(p.email, roleToString role)] }
      match getUserById s.1 s.2 with
      | some u =>
        participantLoop s.1 res2 (ids ++ [u.id])
          (if u.role = .doctor then some u.id else doctorId) rest
      | none => participantLoop s.1 res2 ids doctorId rest

/-- Processing of one bundle: field validation, the participant loop, the
no-valid-participants check, thread creation (modelled from the spec: the
chat-thread adapter in demo mode always yields a fresh synthetic id, so the
`!threadId` failure branch is unreachable), conversation creation with the
tracked doctor id, participant rows, and the five metadata rows. -/
def importBundle (importerId : Nat) (now : String) (db : Db) (res : ImportResults)
    (b : ImportBundle) : Db × ImportResults :=
  if jsStrFalsy b.title ∨ b.participants = none ∨ b.messages = none then
    (db, { res with
            failed := res.failed + 1
            errors := res.errors ++
              [(jsStrOr b.title (jsStrOr b.source_id "Unknown"),
                "Missing required fields (title, participants, or messages)")] })
  else
    let title := b.title.getD ""
    let plr := participantLoop db res [] none (b.participants.getD [])
    let db1 := plr.1
    let res1 := plr.2.1
    let ids := plr.2.2.1
    let doctorId := plr.2.2.2
    if ids.isEmpty then
      (db1, { res1 with
               failed := res1.failed + 1
               errors := res1.errors ++ [(title, "No valid participants found")] })
    else
      let threadId := "demo_thread_" ++ toString db1.nextConversationId
      let ctype : ConversationType :=
        if b.type = some "1to1" then .one_to_one else .one_to_many
      let creatorId := ids.headD 0
      let ccr := createConversation db1 title ctype creatorId threadId doctorId now
      let db2 := ccr.1
      let cid := ccr.2
      let db3 := ids.foldl (fun d pid => addConversationParticipant d cid pid) db2
      let db4 := addConversationMetadata db3 cid "imported_from" (jsStrOr b.source "unknown")
      let db5 := addConversationMetadata db4 cid "source_id" (jsStrOr b.source_id "")
      let db6 := addConversationMetadata db5 cid "original_message_count"
        (match b.message_count with
         | some n => toString n
         | none => toString (b.messages.getD []).length)
      let db7 := addConversationMetadata db6 cid "imported_at" now
      let db8 := addConversationMetadata db7 cid "imported_by" (toString importerId)
      (db8, { res1 with successful := res1.successful + 1 })

/-- The shared routine over a list of bundles, threading the database and
the results accumulator. -/
def importConversations (importerId : Nat) (now : String) (db : Db)
    (res : ImportResults) : List ImportBundle → Db × ImportResults
  | [] => (db, res)
  | b :: rest =>
    let s := importBundle importerId now db res b
    importConversations importerId now s.1 s.2 rest

/-- Specification helper for claim C5: the sequence of users the bundle's
participants resolve to, in bundle order — the existing user for a known
e-mail, otherwise the row re-read after creating the user with the mapped
role (a failed re-read resolves no user, as in the source). -/
def resolvedUsers (db : Db) : List ImportParticipant → List User
  | [] => []
  | p :: rest =>
    match getUserByEmail db p.email with
    | some u => u :: resolvedUsers db rest
    | none =>
      let s := createUser db p.email (mapRole p.role) p.display_name
      match getUserById s.1 s.2 with
      | some u => u :: resolvedUsers s.1 rest
      | none => resolvedUsers s.1 rest

/-! ## Sample data used by the witnesses -/

/-- An empty database with fresh counters. -/
def emptyDb : Db :=
  { users := [], conversations := [], participants := [], metadata := [],
    attachments := [], nextUserId := 1, nextConversationId := 1, nextAttachmentId := 1 }

/-- A sample quality-reviewer. -/
def qualityUser : User :=
  { id := 5, email := "quality@example.com", role := .quality,
    display_name := "Quality Assurance" }

/-- A sample administrator. -/
def adminUser : User :=
  { id := 1, email := "admin@example.com", role := .admin,
    display_name := "System Administrator" }

/-- A sample doctor. -/
def doctorUser : User :=
  { id := 2, email := "doctor@example.com", role := .doctor, display_name := "Doctor" }

/-- A sample patient. -/
def patientUser : User :=
  { id := 3, email := "patient@example.com", role := .patient, display_name := "Patient" }

/-- A sample conversation created by the sample patient. -/
def sampleConversation : Conversation :=
  { id := 1, title := "Consultation", type := .one_to_many, creator_id := 3,
    status := .active, thread_id := "t1", assigned_doctor_id := none,
    created_at := "2025-03-01 10:00:00" }

/-- A database holding the four sample users, the sample conversation, and a
participant row for its creator. -/
def sampleDb : Db :=
  { users := [adminUser, doctorUser, patientUser, qualityUser]
    conversations := [sampleConversation]
    participants := [⟨1, 3⟩]
    metadata := []
    attachments := []
    nextUserId := 6, nextConversationId := 2, nextAttachmentId := 1 }

/-! ## Claim theorems -/

/-- Claim C9: for every authenticated user whose role is quality-reviewer,
`GET /conversations` always answers 500 with message
"Failed to get conversations" and no conversation list — the role dispatch
skips the quality role and the subsequent dereference of the unassigned list
throws into the catch block. -/
theorem quality_get_conversations_always_500 (db : Db) (user : User)
    (h : user.role = .quality) :
    (getConversationsRoute db user).status = 500 ∧
    (getConversationsRoute db user).message = some "Failed to get conversations" ∧
    (getConversationsRoute db user).payload = none := by
  unfold getConversationsRoute
  simp [h]

/-- Witness for C9 at a concrete store and user. -/
theorem quality_get_conversations_always_500_witness :
    (getConversationsRoute sampleDb qualityUser).status = 500 ∧
    (getConversationsRoute sampleDb qualityUser).message = some "Failed to get conversations" ∧
    (getConversationsRoute sampleDb qualityUser).payload = none :=
  quality_get_conversations_always_500 sampleDb qualityUser rfl

/-- Claim C10: `GET /auth/verify` answers 200 with the claims decoded from
any validly signed, unexpired bearer token without consulting the store — in
particular its answer is the same over every store, and it succeeds even
when the user named by the token is missing — while the `authenticateToken`
middleware rejects that same token with 401 "User not found". -/
theorem verify_route_ignores_store (db : Db) (t : BearerToken)
    (hsig : t.signatureValid = true) (hexp : t.expired = false)
    (hmissing : getUserById db t.claims.id = none) :
    (authVerifyRoute db (some t)).status = 200 ∧
    (authVerifyRoute db (some t)).payload = some t.claims ∧
    (∀ db2 : Db, authVerifyRoute db2 (some t) = authVerifyRoute db (some t)) ∧
    authenticateToken db (some t) = .reject 401 "User not found" := by
  unfold authVerifyRoute authenticateToken verifyToken
  simp [hsig, hexp, hmissing]

/-- Witness for C10: a well-signed token for a user absent from the store. -/
theorem verify_route_ignores_store_witness :
    (authVerifyRoute emptyDb (some ⟨⟨42, "gone@example.com", .patient, "Gone"⟩, true, false⟩)).status = 200 ∧
    (authVerifyRoute emptyDb (some ⟨⟨42, "gone@example.com", .patient, "Gone"⟩, true, false⟩)).payload =
      some ⟨42, "gone@example.com", .patient, "Gone"⟩ ∧
    (∀ db2 : Db, authVerifyRoute db2 (some ⟨⟨42, "gone@example.com", .patient, "Gone"⟩, true, false⟩) =
      authVerifyRoute emptyDb (some ⟨⟨42, "gone@example.com", .patient, "Gone"⟩, true, false⟩)) ∧
    authenticateToken emptyDb (some ⟨⟨42, "gone@example.com", .patient, "Gone"⟩, true, false⟩) =
      .reject 401 "User not found" :=
  verify_route_ignores_store emptyDb ⟨⟨42, "gone@example.com", .patient, "Gone"⟩, true, false⟩
    rfl rfl rfl

/-- Claim C8: `DELETE /conversations/:id` succeeds only for doctor or admin
callers — every other role is answered 403 with the store untouched — and
for an existing conversation it removes exactly that conversation's
participant, metadata and attachment rows and the conversation row itself,
leaving rows of other conversations (and the users table) unchanged. -/
theorem delete_conversation_gate_and_cascade (db : Db) (user : User) (cid : Nat) :
    (¬ (user.role = .doctor ∨ user.role = .admin) →
      (deleteConversationRoute db user (some cid)).1.status = 403 ∧
      (deleteConversationRoute db user (some cid)).2 = db) ∧
    ((user.role = .doctor ∨ user.role = .admin) →
      (getConversationById db cid).isSome →
      (deleteConversationRoute db user (some cid)).1.status = 200 ∧
      (deleteConversationRoute db user (some cid)).2.participants =
        db.participants.filter (fun p => ¬ p.conversation_id = cid) ∧
      (deleteConversationRoute db user (some cid)).2.metadata =
        db.metadata.filter (fun m => ¬ m.conversation_id = cid) ∧
      (deleteConversationRoute db user (some cid)).2.attachments =
        db.attachments.filter (fun a => ¬ a.conversation_id = cid) ∧
      (deleteConversationRoute db user (some cid)).2.conversations =
        db.conversations.filter (fun c => ¬ c.id = cid) ∧
      (deleteConversationRoute db user (some cid)).2.users = db.users) := by
  constructor
  · intro hrole
    unfold deleteConversationRoute
    simp [hrole]
  · intro hrole hex
    rcases Option.isSome_iff_exists.mp hex with ⟨conv, hconv⟩
    unfold deleteConversationRoute deleteConversation
    simp [hrole, hconv]

/-- Witness for C8: the patient is rejected with 403 and changes nothing;
the doctor deletes the sample conversation, emptying exactly its rows. -/
theorem delete_conversation_gate_and_cascade_witness :
    ((deleteConversationRoute sampleDb patientUser (some 1)).1.status = 403 ∧
      (deleteConversationRoute sampleDb patientUser (some 1)).2 = sampleDb) ∧
    ((deleteConversationRoute sampleDb doctorUser (some 1)).1.status = 200 ∧
      (deleteConversationRoute sampleDb doctorUser (some 1)).2.participants = [] ∧
      (deleteConversationRoute sampleDb doctorUser (some 1)).2.conversations = []) := by
  constructor
  · exact (delete_conversation_gate_and_cascade sampleDb patientUser 1).1 (by decide)
  · have h := (delete_conversation_gate_and_cascade sampleDb doctorUser 1).2
      (Or.inl rfl) (by decide)
    exact ⟨h.1, by rw [h.2.1]; decide, by rw [h.2.2.2.2.1]; decide⟩

/-- Claim C1: for an authenticated upload naming an existing conversation
(and with object storage functioning, whose failure the source maps to 500),
the answer is 201 exactly when the MIME type is allowed, the size is at most
50 MiB and the caller has access to the conversation; and an oversize file
is answered 400 regardless of its MIME type (and of the storage flags). -/
theorem upload_attachment_invariants (db : Db) (user : User) (cid : Nat) (f : UploadFile)
    (blobConfigured blobUploadOk : Bool) (storedFilename now : String) (conv : Conversation)
    (hconv : getConversationById db cid = some conv) :
    (blobConfigured = true → blobUploadOk = true →
      ((uploadAttachmentRoute db user (some cid) (some f) blobConfigured blobUploadOk
          storedFilename now).1.status = 201 ↔
        (f.mimetype ∈ ALLOWED_FILE_TYPES ∧ f.size ≤ MAX_FILE_SIZE ∧
          hasConversationAccess db user conv))) ∧
    (MAX_FILE_SIZE < f.size →
      (uploadAttachmentRoute db user (some cid) (some f) blobConfigured blobUploadOk
          storedFilename now).1.status = 400) := by
  constructor
  · rintro rfl rfl
    by_cases hsize : f.size > MAX_FILE_SIZE
    · have hst : (uploadAttachmentRoute db user (some cid) (some f) true true
          storedFilename now).1.status = 400 := by
        unfold uploadAttachmentRoute
        simp [hsize]
      rw [hst]
      constructor
      · intro h
        exact absurd h (by decide)
      · rintro ⟨_, hle, _⟩
        exact absurd hle (by omega)
    · by_cases hmem : f.mimetype ∈ ALLOWED_FILE_TYPES
      · by_cases hacc : hasConversationAccess db user conv
        · have hst : (uploadAttachmentRoute db user (some cid) (some f) true true
              storedFilename now).1.status = 201 := by
            unfold uploadAttachmentRoute
            simp [hsize, hmem, hconv, hacc]
          rw [hst]
          simp only [true_iff]
          exact ⟨hmem, by omega, hacc⟩
        · have hst : (uploadAttachmentRoute db user (some cid) (some f) true true
              storedFilename now).1.status = 403 := by
            unfold uploadAttachmentRoute
            simp [hsize, hmem, hconv, hacc]
          rw [hst]
          constructor
          · intro h
            exact absurd h (by decide)
          · rintro ⟨_, _, h⟩
            exact absurd h hacc
      · have hst : (uploadAttachmentRoute db user (some cid) (some f) true true
            storedFilename now).1.status = 400 := by
          unfold uploadAttachmentRoute
          simp [hsize, hmem]
        rw [hst]
        constructor
        · intro h
          exact absurd h (by decide)
        · rintro ⟨h, _, _⟩
          exact absurd h hmem
  · intro h
    unfold uploadAttachmentRoute
    simp [h]

/-- Witness for C1: the admin uploads a small text file to the sample
conversation (201 side of the equivalence) and an oversize file is
rejected. -/
theorem upload_attachment_invariants_witness :
    (uploadAttachmentRoute sampleDb adminUser (some 1)
        (some ⟨"notes.txt", 10, "text/plain"⟩) true true "123_abc.txt"
        "2025-03-01 11:00:00").1.status = 201 ∧
    (uploadAttachmentRoute sampleDb adminUser (some 1)
        (some ⟨"big.bin", 60000000, "text/plain"⟩) true true "123_abc.txt"
        "2025-03-01 11:00:00").1.status = 400 := by
  constructor
  · exact ((upload_attachment_invariants sampleDb adminUser 1 ⟨"notes.txt", 10, "text/plain"⟩
      true true "123_abc.txt" "2025-03-01 11:00:00" sampleConversation (by decide)).1
      rfl rfl).mpr ⟨by decide, by decide, Or.inl rfl⟩
  · exact (upload_attachment_invariants sampleDb adminUser 1 ⟨"big.bin", 60000000, "text/plain"⟩
      true true "123_abc.txt" "2025-03-01 11:00:00" sampleConversation (by decide)).2 (by decide)

/-- Helper: `find?` over an append whose left part has no hit. -/
theorem find?_append_left_none {α : Type} (p : α → Bool) (l₁ l₂ : List α)
    (h : l₁.find? p = none) : (l₁ ++ l₂).find? p = l₂.find? p := by
  induction l₁ with
  | nil => simp
  | cons a l ih =>
    rw [List.find?_cons] at h
    rcases hp : p a with _ | _
    · rw [List.cons_append, List.find?_cons, hp]
      rw [hp] at h
      exact ih h
    · rw [hp] at h
      cases h

/-- Helper: reading the user row just created by `createUser` in a
well-formed store (every stored id below the id counter, as the SQLite
AUTOINCREMENT column guarantees) yields the created row. -/
theorem getUserById_createUser (db : Db) (e : String) (r : UserRole) (d : String)
    (hwf : ∀ u ∈ db.users, u.id < db.nextUserId) :
    getUserById (createUser db e r d).1 (createUser db e r d).2 =
      some { id := db.nextUserId, email := e, role := r, display_name := d } := by
  unfold getUserById createUser
  simp only
  rw [find?_append_left_none]
  · simp
  · rw [List.find?_eq_none]
    intro u hu
    have := hwf u hu
    simp only [decide_eq_true_eq]
    omega

/-- Claim C2: a care-seeker request to create a `1to1` conversation whose
`assigned_doctor_id` is absent, names no stored user, or names a user whose
role is not doctor, is answered 400 and leaves the conversations table
unchanged. -/
theorem create_1to1_invalid_doctor_400 (db : Db) (user : User)
    (req : CreateConversationReq) (threadId now : String)
    (hrole : user.role = .patient)
    (htype : req.type = some "1to1")
    (hbad : req.assigned_doctor_id = none ∨
      ∃ did, req.assigned_doctor_id = some did ∧
        (getUserById db did = none ∨
          ∃ d, getUserById db did = some d ∧ ¬ d.role = .doctor)) :
    (createConversationRoute db user req threadId now).1.status = 400 ∧
    (createConversationRoute db user req threadId now).2.conversations =
      db.conversations := by
  unfold createConversationRoute
  by_cases htitle : jsStrFalsy req.title
  · simp [hrole, htitle]
  · rcases hbad with hnone | ⟨did, hdid, hcase⟩
    · simp [hrole, htype, htitle, hnone, VALID_CONVERSATION_TYPE_STRINGS,
        conversationTypeOfString, jsStrFalsy]
      split <;> simp
    · have hnod : ¬ ∃ d, getUserById db did = some d ∧ d.role = .doctor := by
        rcases hcase with hmiss | ⟨d, hd, hnd⟩
        · rintro ⟨d2, hd2, _⟩
          rw [hmiss] at hd2
          cases hd2
        · rintro ⟨d2, hd2, hrole2⟩
          rw [hd] at hd2
          cases hd2
          exact hnd hrole2
      by_cases hz : did = 0
      · simp [hrole, htype, htitle, hdid, hz, VALID_CONVERSATION_TYPE_STRINGS,
          conversationTypeOfString, jsStrFalsy]
        split <;> simp
      · simp [hrole, htype, htitle, hdid, hz, hnod, VALID_CONVERSATION_TYPE_STRINGS,
          conversationTypeOfString, jsStrFalsy]
        split <;> simp

/-- Witness for C2: the patient asks for a `1to1` conversation assigned to
the quality user (id 5, not a doctor) and to a missing user (id 99); both
answer 400 and create no row. -/
theorem create_1to1_invalid_doctor_400_witness :
    ((createConversationRoute sampleDb patientUser ⟨some "Help", some "1to1", some 5⟩
        "t9" "2025-03-02 09:00:00").1.status = 400 ∧
      (createConversationRoute sampleDb patientUser ⟨some "Help", some "1to1", some 5⟩
        "t9" "2025-03-02 09:00:00").2.conversations = sampleDb.conversations) ∧
    ((createConversationRoute sampleDb patientUser ⟨some "Help", some "1to1", some 99⟩
        "t9" "2025-03-02 09:00:00").1.status = 400 ∧
      (createConversationRoute sampleDb patientUser ⟨some "Help", some "1to1", some 99⟩
        "t9" "2025-03-02 09:00:00").2.conversations = sampleDb.conversations) := by
  constructor
  · exact create_1to1_invalid_doctor_400 sampleDb patientUser
      ⟨some "Help", some "1to1", some 5⟩ "t9" "2025-03-02 09:00:00" rfl rfl
      (Or.inr ⟨5, rfl, Or.inr ⟨qualityUser, by decide, by decide⟩⟩)
  · exact create_1to1_invalid_doctor_400 sampleDb patientUser
      ⟨some "Help", some "1to1", some 99⟩ "t9" "2025-03-02 09:00:00" rfl rfl
      (Or.inr ⟨99, rfl, Or.inl (by decide)⟩)

/-- Claim C3: registration answers 400 whenever a field is missing (falsy),
the role is not one of the four valid values, the e-mail fails the pattern,
or the password is shorter than 6 characters; and every well-formed request
for an unused e-mail — in particular with role "quality" — is answered 201
with a user object whose role equals the requested role (in a well-formed
store, where every stored id is below the id counter). -/
theorem register_validation_and_success (db : Db) (req : RegisterReq) :
    ((jsStrFalsy req.email ∨ jsStrFalsy req.password ∨ jsStrFalsy req.role ∨
        jsStrFalsy req.display_name ∨
        ¬ (req.role.getD "") ∈ VALID_ROLE_STRINGS ∨
        emailRegexTest (req.email.getD "") = false ∨
        (req.password.getD "").length < 6) →
      (registerRoute db req).1.status = 400) ∧
    (∀ email password role displayName,
      req = ⟨some email, some password, some role, some displayName⟩ →
      ¬ displayName = "" →
      role ∈ VALID_ROLE_STRINGS →
      emailRegexTest email = true →
      6 ≤ password.length →
      getUserByEmail db email = none →
      (∀ u ∈ db.users, u.id < db.nextUserId) →
      (registerRoute db req).1.status = 201 ∧
      (registerRoute db req).1.payload =
        some { id := db.nextUserId, email := email, role := role,
               display_name := displayName }) := by
  constructor
  · intro h
    unfold registerRoute
    by_cases h1 : jsStrFalsy req.email ∨ jsStrFalsy req.password ∨ jsStrFalsy req.role ∨
        jsStrFalsy req.display_name
    · simp [h1]
    · by_cases h2 : (req.role.getD "") ∈ VALID_ROLE_STRINGS
      · by_cases h3 : emailRegexTest (req.email.getD "") = true
        · by_cases h4 : (req.password.getD "").length < 6
          · simp [h1, h2, h3, h4]
          · rcases h with h | h | h | h | h | h | h
            · exact absurd (Or.inl h) h1
            · exact absurd (Or.inr (Or.inl h)) h1
            · exact absurd (Or.inr (Or.inr (Or.inl h))) h1
            · exact absurd (Or.inr (Or.inr (Or.inr h))) h1
            · exact absurd h2 h
            · rw [h3] at h
              cases h
            · exact absurd h h4
        · simp [h1, h2, h3]
      · simp [h1, h2]
  · rintro email password role displayName rfl hdn hrolev hregex hlen hfree hwf
    have hem : ¬ email = "" := by
      rintro rfl
      rw [show emailRegexTest "" = false from rfl] at hregex
      cases hregex
    have hpw : ¬ password = "" := by
      rintro rfl
      rw [show ("" : String).length = 0 from rfl] at hlen
      omega
    have hrl : ¬ role = "" := by
      rintro rfl
      revert hrolev
      decide
    have hroundtrip : roleToString (roleOfString role) = role := by
      have h := hrolev
      simp only [VALID_ROLE_STRINGS, List.mem_cons, List.not_mem_nil, or_false,
        List.mem_singleton] at h
      rcases h with rfl | rfl | rfl | rfl <;> rfl
    have hread := getUserById_createUser db email (roleOfString role) displayName hwf
    simp only [createUser] at hread
    unfold registerRoute
    simp [jsStrFalsy, hem, hpw, hrl, hdn, hrolev, hregex,
      show ¬ password.length < 6 by omega, hfree, createUser, hread, hroundtrip]

/-- Witness for C3: a well-formed registration with role "quality" on the
sample store answers 201 with a quality-role user object; a 5-character
password is answered 400. -/
theorem register_validation_and_success_witness :
    ((registerRoute sampleDb ⟨some "new@example.com", some "secret7", some "quality",
        some "New Reviewer"⟩).1.status = 201 ∧
      (registerRoute sampleDb ⟨some "new@example.com", some "secret7", some "quality",
        some "New Reviewer"⟩).1.payload =
        some { id := 6, email := "new@example.com", role := "quality",
               display_name := "New Reviewer" }) ∧
    (registerRoute sampleDb ⟨some "new@example.com", some "12345", some "patient",
        some "Shorty"⟩).1.status = 400 := by
  constructor
  · exact (register_validation_and_success sampleDb
      ⟨some "new@example.com", some "secret7", some "quality", some "New Reviewer"⟩).2
      "new@example.com" "secret7" "quality" "New Reviewer" rfl (by decide) (by decide)
      (by decide) (by decide) (by decide) (by decide)
  · exact (register_validation_and_success sampleDb
      ⟨some "new@example.com", some "12345", some "patient", some "Shorty"⟩).1
      (by decide)

/-- Claim C4: for every `[startDate, endDate]` pair, the range aggregate's
`totalConversations` is the count of conversation rows whose `created_at`
lies within the inclusive bound, and `avgConversationsPerDay` is the
arithmetic mean of the `count` values of the returned `conversationsPerDay`
buckets, rounded to two decimals (the mean of no buckets being 0). -/
theorem analytics_range_total_and_avg (db : Db) (startDate endDate : String) :
    (getAnalytics db (some startDate) (some endDate)).totalConversations =
      (db.conversations.filter (fun c =>
        strLe startDate c.created_at && strLe c.created_at endDate)).length ∧
    (getAnalytics db (some startDate) (some endDate)).avgConversationsPerDay =
      jsRound2
        (if (getAnalytics db (some startDate) (some endDate)).conversationsPerDay.length = 0
         then 0
         else ((((getAnalytics db (some startDate) (some endDate)).conversationsPerDay.map
              (fun b => b.count)).sum : ℚ) /
            ((getAnalytics db (some startDate) (some endDate)).conversationsPerDay.length : ℚ))) := by
  constructor
  · rfl
  · unfold getAnalytics inDateRange
    simp only
    rcases Nat.eq_zero_or_pos
        (conversationsPerDayBuckets
          (db.conversations.filter (fun c =>
            strLe startDate c.created_at && strLe c.created_at endDate))).length with
      hlen | hlen
    · simp [hlen]
    · simp [hlen, Nat.pos_iff_ne_zero.mp hlen]

/-- Claim C7: `getAllMessagesFromRoom` terminates for every mock backend
whose batches are eventually shorter than the page size of 1000 (an empty
batch included), and returns exactly the concatenation of all fetched
batches sorted ascending by timestamp; when the first batch is already
empty it returns the empty list. -/
theorem getAllMessages_pagination (backend : Nat → List RocketChatMessage)
    (h : ∃ n, (backend n).length < 1000) :
    getAllMessagesFromRoom backend h =
      sortMessagesByTs (((List.range (Nat.find h + 1)).map backend).flatten) ∧
    (getAllMessagesFromRoom backend h).Sorted tsLe ∧
    List.Perm (getAllMessagesFromRoom backend h)
      (((List.range (Nat.find h + 1)).map backend).flatten) ∧
    ((backend 0).length = 0 → getAllMessagesFromRoom backend h = []) := by
  have hk := Nat.find_spec h
  have hmin : ∀ j, j < Nat.find h → 1000 ≤ (backend j).length := by
    intro j hj
    have := Nat.find_min h hj
    omega
  have haux : ∀ fuel i acc, i ≤ Nat.find h → Nat.find h + 1 - i ≤ fuel →
      getAllMessagesAux backend fuel i acc =
        acc ++ ((List.range' i (Nat.find h + 1 - i)).map backend).flatten := by
    intro fuel
    induction fuel with
    | zero =>
      intro i acc hik hfuel
      omega
    | succ fuel ih =>
      intro i acc hik hfuel
      by_cases hike : i = Nat.find h
      · subst hike
        have h1 : Nat.find h + 1 - Nat.find h = 1 := by omega
        rw [h1]
        simp only [getAllMessagesAux, List.range']
        by_cases h0 : (backend (Nat.find h)).length = 0
        · rw [if_pos h0]
          simp [List.length_eq_zero.mp h0]
        · rw [if_neg h0, if_pos hk]
          simp
      · have hlt : i < Nat.find h := by omega
        have hbig := hmin i hlt
        simp only [getAllMessagesAux]
        rw [if_neg (by omega), if_neg (by omega)]
        rw [ih (i + 1) (acc ++ backend i) (by omega) (by omega)]
        have hrange : Nat.find h + 1 - i = (Nat.find h - i) + 1 := by omega
        have hrange2 : Nat.find h + 1 - (i + 1) = Nat.find h - i := by omega
        rw [hrange2, hrange, List.range'_succ]
        simp
  have heq : getAllMessagesFromRoom backend h =
      sortMessagesByTs (((List.range (Nat.find h + 1)).map backend).flatten) := by
    unfold getAllMessagesFromRoom
    rw [haux (Nat.find h + 1) 0 [] (by omega) (by omega)]
    rw [List.range_eq_range']
    simp
  refine ⟨heq, ?_, ?_, ?_⟩
  · rw [heq]
    exact List.sorted_insertionSort tsLe _
  · rw [heq]
    exact List.perm_insertionSort tsLe _
  · intro h0
    have hfind0 : Nat.find h = 0 := by
      rw [Nat.find_eq_zero]
      omega
    rw [heq, hfind0]
    have hb : backend 0 = [] := List.length_eq_zero.mp h0
    simp [hb, sortMessagesByTs, List.insertionSort, List.range_succ, List.range_zero]

/-- Witness for C7: the backend whose every batch is empty terminates at
once with the empty list. -/
theorem getAllMessages_pagination_witness :
    getAllMessagesFromRoom (fun _ => ([] : List RocketChatMessage)) ⟨0, by decide⟩ = [] :=
  (getAllMessages_pagination (fun _ => []) ⟨0, by decide⟩).2.2.2 rfl

/-- Helper: `find?` over an append whose left part already has a hit. -/
theorem find?_append_left_some {α : Type} (p : α → Bool) (l₁ l₂ : List α) (a : α)
    (h : l₁.find? p = some a) : (l₁ ++ l₂).find? p = some a := by
  induction l₁ with
  | nil => cases h
  | cons x l ih =>
    rcases hp : p x with _ | _
    · rw [List.find?_cons_of_neg _ (by simp [hp])] at h
      rw [List.cons_append, List.find?_cons_of_neg _ (by simp [hp])]
      exact ih h
    · rw [List.find?_cons_of_pos _ hp] at h
      rw [List.cons_append, List.find?_cons_of_pos _ hp]
      exact h

/-- A bundle passes the required-field validation of the shared routine. -/
def bundleValid (b : ImportBundle) : Prop :=
  ¬ (jsStrFalsy b.title = true ∨ b.participants = none ∨ b.messages = none)

/-- The e-mails of a bundle's participants. -/
def bundleEmails (b : ImportBundle) : List String :=
  (b.participants.getD []).map (fun p => p.email)

/-- The participant loop yields the ids of the resolved users, appended to
the accumulator. -/
theorem participantLoop_ids (ps : List ImportParticipant) :
    ∀ db res ids docId,
      (participantLoop db res ids docId ps).2.2.1 =
        ids ++ (resolvedUsers db ps).map (fun u => u.id) := by
  induction ps with
  | nil =>
    intro db res ids docId
    simp [participantLoop, resolvedUsers]
  | cons p rest ih =>
    intro db res ids docId
    simp only [participantLoop, resolvedUsers]
    cases hfind : getUserByEmail db p.email with
    | some u => simp [hfind, ih]
    | none =>
      cases hgot : getUserById (createUser db p.email (mapRole p.role) p.display_name).1
          (createUser db p.email (mapRole p.role) p.display_name).2 with
      | some u => simp [hfind, hgot, ih]
      | none => simp [hfind, hgot, ih]

/-- The participant loop's final doctor id is the overwrite-fold of the
doctor check over the resolved users. -/
theorem participantLoop_docId (ps : List ImportParticipant) :
    ∀ db res ids docId,
      (participantLoop db res ids docId ps).2.2.2 =
        (resolvedUsers db ps).foldl
          (fun a u => if u.role = .doctor then some u.id else a) docId := by
  induction ps with
  | nil =>
    intro db res ids docId
    simp [participantLoop, resolvedUsers]
  | cons p rest ih =>
    intro db res ids docId
    simp only [participantLoop, resolvedUsers]
    cases hfind : getUserByEmail db p.email with
    | some u => simp [hfind, ih]
    | none =>
      cases hgot : getUserById (createUser db p.email (mapRole p.role) p.display_name).1
          (createUser db p.email (mapRole p.role) p.display_name).2 with
      | some u => simp [hfind, hgot, ih]
      | none => simp [hfind, hgot, ih]

/-- The participant loop touches only the users table and the id counter. -/
theorem participantLoop_db_other (ps : List ImportParticipant) :
    ∀ db res ids docId,
      (participantLoop db res ids docId ps).1.conversations = db.conversations ∧
      (participantLoop db res ids docId ps).1.participants = db.participants ∧
      (participantLoop db res ids docId ps).1.metadata = db.metadata ∧
      (participantLoop db res ids docId ps).1.nextConversationId = db.nextConversationId := by
  induction ps with
  | nil =>
    intro db res ids docId
    simp [participantLoop]
  | cons p rest ih =>
    intro db res ids docId
    simp only [participantLoop]
    cases hfind : getUserByEmail db p.email with
    | some u => simp [hfind, ih]
    | none =>
      cases hgot : getUserById (createUser db p.email (mapRole p.role) p.display_name).1
          (createUser db p.email (mapRole p.role) p.display_name).2 with
      | some u => simp [hfind, hgot, ih, createUser]
      | none => simp [hfind, hgot, ih, createUser]

/-- The participant loop only appends to the users table. -/
theorem participantLoop_users_ext (ps : List ImportParticipant) :
    ∀ db res ids docId,
      ∃ ext, (participantLoop db res ids docId ps).1.users = db.users ++ ext := by
  induction ps with
  | nil =>
    intro db res ids docId
    exact ⟨[], by simp [participantLoop]⟩
  | cons p rest ih =>
    intro db res ids docId
    simp only [participantLoop]
    cases hfind : getUserByEmail db p.email with
    | some u =>
      simp only [hfind]
      exact ih db _ _ _
    | none =>
      simp only [hfind]
      cases hgot : getUserById (createUser db p.email (mapRole p.role) p.display_name).1
          (createUser db p.email (mapRole p.role) p.display_name).2 with
      | some u =>
        simp only [hgot]
        rcases ih (createUser db p.email (mapRole p.role) p.display_name).1 _ _ _ with ⟨ext, hext⟩
        refine ⟨⟨db.nextUserId, p.email, mapRole p.role, p.display_name⟩ :: ext, ?_⟩
        rw [hext]
        simp [createUser]
      | none =>
        simp only [hgot]
        rcases ih (createUser db p.email (mapRole p.role) p.display_name).1 _ _ _ with ⟨ext, hext⟩
        refine ⟨⟨db.nextUserId, p.email, mapRole p.role, p.display_name⟩ :: ext, ?_⟩
        rw [hext]
        simp [createUser]

/-- The participant loop only appends to the skipped-users report. -/
theorem participantLoop_skipped_ext (ps : List ImportParticipant) :
    ∀ db res ids docId,
      ∃ ext, (participantLoop db res ids docId ps).2.1.skippedUsers =
        res.skippedUsers ++ ext := by
  induction ps with
  | nil =>
    intro db res ids docId
    exact ⟨[], by simp [participantLoop]⟩
  | cons p rest ih =>
    intro db res ids docId
    simp only [participantLoop]
    cases hfind : getUserByEmail db p.email with
    | some u =>
      simp only [hfind]
      rcases ih db _ _ _ with ⟨ext, hext⟩
      refine ⟨(p.email, "User already exists") :: ext, ?_⟩
      rw [hext]
      simp
    | none =>
      simp only [hfind]
      cases hgot : getUserById (createUser db p.email (mapRole p.role) p.display_name).1
          (createUser db p.email (mapRole p.role) p.display_name).2 with
      | some u =>
        simp only [hgot]
        rcases ih (createUser db p.email (mapRole p.role) p.display_name).1 _ _ _ with ⟨ext, hext⟩
        exact ⟨ext, by rw [hext]⟩
      | none =>
        simp only [hgot]
        rcases ih (createUser db p.email (mapRole p.role) p.display_name).1 _ _ _ with ⟨ext, hext⟩
        exact ⟨ext, by rw [hext]⟩

/-- Every user the participant loop reports as created is present (by
e-mail) in the resulting users table, unless it was already in the incoming
report. -/
theorem participantLoop_created_mem (ps : List ImportParticipant) :
    ∀ db res ids docId e r,
      (e, r) ∈ (participantLoop db res ids docId ps).2.1.createdUsers →
      (e, r) ∈ res.createdUsers ∨
        ∃ u ∈ (participantLoop db res ids docId ps).1.users, u.email = e := by
  induction ps with
  | nil =>
    intro db res ids docId e r hmem
    exact Or.inl (by simpa [participantLoop] using hmem)
  | cons p rest ih =>
    intro db res ids docId e r hmem
    cases hfind : getUserByEmail db p.email with
    | some u =>
      simp only [participantLoop, hfind] at hmem ⊢
      exact ih db _ _ _ e r hmem
    | none =>
      cases hgot : getUserById (createUser db p.email (mapRole p.role) p.display_name).1
          (createUser db p.email (mapRole p.role) p.display_name).2 with
      | some u =>
        simp only [participantLoop, hfind, hgot] at hmem ⊢
        rcases ih _ _ _ _ e r hmem with hin | hin
        · rcases List.mem_append.mp hin with hin2 | hin2
          · exact Or.inl hin2
          · right
            have heq : e = p.email := congrArg Prod.fst (List.mem_singleton.mp hin2)
            rcases participantLoop_users_ext rest
                (createUser db p.email (mapRole p.role) p.display_name).1
                { res with createdUsers :=
                    res.createdUsers ++ [(p.email, roleToString (mapRole p.role))] }
                (ids ++ [u.id]) (if u.role = .doctor then some u.id else docId) with ⟨ext, hext⟩
            refine ⟨⟨db.nextUserId, p.email, mapRole p.role, p.display_name⟩, ?_, heq.symm⟩
            rw [hext]
            simp [createUser]
        · exact Or.inr hin
      | none =>
        simp only [participantLoop, hfind, hgot] at hmem ⊢
        rcases ih _ _ _ _ e r hmem with hin | hin
        · rcases List.mem_append.mp hin with hin2 | hin2
          · exact Or.inl hin2
          · right
            have heq : e = p.email := congrArg Prod.fst (List.mem_singleton.mp hin2)
            rcases participantLoop_users_ext rest
                (createUser db p.email (mapRole p.role) p.display_name).1
                { res with createdUsers :=
                    res.createdUsers ++ [(p.email, roleToString (mapRole p.role))] }
                ids docId with ⟨ext, hext⟩
            refine ⟨⟨db.nextUserId, p.email, mapRole p.role, p.display_name⟩, ?_, heq.symm⟩
            rw [hext]
            simp [createUser]
        · exact Or.inr hin

/-- When a participant's e-mail already has a user row, the loop reports it
as skipped with reason "User already exists". -/
theorem participantLoop_skips (ps : List ImportParticipant) :
    ∀ db res ids docId e,
      (∃ u ∈ db.users, u.email = e) →
      e ∈ ps.map (fun p => p.email) →
      (e, "User already exists") ∈ (participantLoop db res ids docId ps).2.1.skippedUsers := by
  induction ps with
  | nil =>
    intro db res ids docId e _ hmem
    cases hmem
  | cons p rest ih =>
    intro db res ids docId e hex hmem
    simp only [participantLoop]
    rcases List.mem_cons.mp hmem with heq | hmem2
    · subst heq
      cases hfind : getUserByEmail db p.email with
      | none =>
        exfalso
        rcases hex with ⟨u, hu, he⟩
        have := List.find?_eq_none.mp hfind u hu
        simp [he] at this
      | some u =>
        rcases participantLoop_skipped_ext rest db
            { res with skippedUsers := res.skippedUsers ++ [(p.email, "User already exists")] }
            (ids ++ [u.id]) (if u.role = .doctor then some u.id else docId) with ⟨ext, hext⟩
        rw [hext]
        simp
    · cases hfind : getUserByEmail db p.email with
      | some u => exact ih db _ _ _ e hex hmem2
      | none =>
        cases hgot : getUserById (createUser db p.email (mapRole p.role) p.display_name).1
            (createUser db p.email (mapRole p.role) p.display_name).2 with
        | some u =>
          refine ih _ _ _ _ e ?_ hmem2
          rcases hex with ⟨v, hv, he⟩
          exact ⟨v, by simp [createUser, hv], he⟩
        | none =>
          refine ih _ _ _ _ e ?_ hmem2
          rcases hex with ⟨v, hv, he⟩
          exact ⟨v, by simp [createUser, hv], he⟩

/-- Every created-user report entry of the loop names a participant of the
processed list (or was already in the incoming report). -/
theorem participantLoop_created_src (ps : List ImportParticipant) :
    ∀ db res ids docId e r,
      (e, r) ∈ (participantLoop db res ids docId ps).2.1.createdUsers →
      (e, r) ∈ res.createdUsers ∨ e ∈ ps.map (fun p => p.email) := by
  induction ps with
  | nil =>
    intro db res ids docId e r hmem
    exact Or.inl (by simpa [participantLoop] using hmem)
  | cons p rest ih =>
    intro db res ids docId e r hmem
    simp only [participantLoop] at hmem
    cases hfind : getUserByEmail db p.email with
    | some u =>
      rw [hfind] at hmem
      rcases ih db _ _ _ e r hmem with hin | hin
      · exact Or.inl hin
      · exact Or.inr (List.mem_cons_of_mem _ hin)
    | none =>
      rw [hfind] at hmem
      have hsplit : (e, r) ∈ res.createdUsers ++ [(p.email, roleToString (mapRole p.role))] ∨
          e ∈ rest.map (fun p => p.email) := by
        cases hgot : getUserById (createUser db p.email (mapRole p.role) p.display_name).1
            (createUser db p.email (mapRole p.role) p.display_name).2 with
        | some u =>
          rw [hgot] at hmem
          exact ih _ _ _ _ e r hmem
        | none =>
          rw [hgot] at hmem
          exact ih _ _ _ _ e r hmem
      rcases hsplit with hin | hin
      · rcases List.mem_append.mp hin with hin2 | hin2
        · exact Or.inl hin2
        · have heq : e = p.email := congrArg Prod.fst (List.mem_singleton.mp hin2)
          exact Or.inr (by simp [heq])
      · exact Or.inr (List.mem_cons_of_mem _ hin)

/-- The loop preserves distinctness of user e-mails. -/
theorem participantLoop_nodup (ps : List ImportParticipant) :
    ∀ db res ids docId,
      (db.users.map (fun u => u.email)).Nodup →
      ((participantLoop db res ids docId ps).1.users.map (fun u => u.email)).Nodup := by
  induction ps with
  | nil =>
    intro db res ids docId hn
    simpa [participantLoop] using hn
  | cons p rest ih =>
    intro db res ids docId hn
    simp only [participantLoop]
    cases hfind : getUserByEmail db p.email with
    | some u => exact ih db _ _ _ hn
    | none =>
      have hnotin : ¬ p.email ∈ db.users.map (fun u => u.email) := by
        intro hmem
        rcases List.mem_map.mp hmem with ⟨u, hu, he⟩
        have := List.find?_eq_none.mp hfind u hu
        simp [he] at this
      have hn2 : (((createUser db p.email (mapRole p.role) p.display_name).1.users).map
          (fun u => u.email)).Nodup := by
        simp only [createUser, List.map_append]
        refine List.Nodup.append hn (by simp) ?_
        intro a ha hb
        rcases List.mem_singleton.mp (by simpa using hb) with rfl
        exact hnotin ha
      cases hgot : getUserById (createUser db p.email (mapRole p.role) p.display_name).1
          (createUser db p.email (mapRole p.role) p.display_name).2 with
      | some u => exact ih _ _ _ _ hn2
      | none => exact ih _ _ _ _ hn2

/-- The overwrite-fold of the doctor check keeps the rightmost hit: it
equals the first doctor of the reversed list (falling back to the initial
value). -/
theorem foldl_doctor_track (l : List User) :
    ∀ init : Option Nat,
      l.foldl (fun a u => if u.role = .doctor then some u.id else a) init =
        match l.reverse.find? (fun u => u.role = .doctor) with
        | some u => some u.id
        | none => init := by
  induction l with
  | nil =>
    intro init
    simp
  | cons u rest ih =>
    intro init
    rw [List.foldl_cons, ih, List.reverse_cons]
    cases hr : rest.reverse.find? (fun u => u.role = .doctor) with
    | some v =>
      rw [find?_append_left_some _ _ _ _ hr]
    | none =>
      rw [find?_append_left_none _ _ _ hr]
      by_cases hd : u.role = .doctor
      · simp [hd]
      · simp [hd]

/-- `addParticipantToConversation` leaves the users table unchanged. -/
theorem addParticipant_users (db : Db) (cid uid : Nat) :
    (addParticipantToConversation db cid uid).users = db.users := by
  unfold addParticipantToConversation
  split <;> simp

/-- `addParticipantToConversation` leaves the conversations table
unchanged. -/
theorem addParticipant_conversations (db : Db) (cid uid : Nat) :
    (addParticipantToConversation db cid uid).conversations = db.conversations := by
  unfold addParticipantToConversation
  split <;> simp

/-- Folding participant inserts over a list of ids leaves the users table
unchanged. -/
theorem foldl_addParticipant_users (ids : List Nat) :
    ∀ db cid,
      (ids.foldl (fun d pid => addConversationParticipant d cid pid) db).users = db.users := by
  induction ids with
  | nil =>
    intro db cid
    simp
  | cons i rest ih =>
    intro db cid
    rw [List.foldl_cons, ih (addConversationParticipant db cid i) cid]
    exact addParticipant_users db cid i

/-- Folding participant inserts over a list of ids leaves the conversations
table unchanged. -/
theorem foldl_addParticipant_conversations (ids : List Nat) :
    ∀ db cid,
      (ids.foldl (fun d pid => addConversationParticipant d cid pid) db).conversations =
        db.conversations := by
  induction ids with
  | nil =>
    intro db cid
    simp
  | cons i rest ih =>
    intro db cid
    rw [List.foldl_cons, ih (addConversationParticipant db cid i) cid]
    exact addParticipant_conversations db cid i

/-- One bundle only appends to the users table. -/
theorem importBundle_users_ext (importerId : Nat) (now : String) (db : Db)
    (res : ImportResults) (b : ImportBundle) :
    ∃ ext, (importBundle importerId now db res b).1.users = db.users ++ ext := by
  unfold importBundle
  by_cases hv : (jsStrFalsy b.title = true ∨ b.participants = none ∨ b.messages = none)
  · rw [if_pos hv]
    exact ⟨[], by simp⟩
  · rw [if_neg hv]
    dsimp only
    rcases participantLoop_users_ext (b.participants.getD []) db res [] none with ⟨ext, hext⟩
    by_cases hids :
        (participantLoop db res [] none (b.participants.getD [])).2.2.1.isEmpty = true
    · rw [if_pos hids]
      exact ⟨ext, hext⟩
    · rw [if_neg hids]
      refine ⟨ext, ?_⟩
      simp only [addConversationMetadata, foldl_addParticipant_users, createConversation]
      exact hext

/-- One bundle only appends to the skipped-users report. -/
theorem importBundle_skipped_ext (importerId : Nat) (now : String) (db : Db)
    (res : ImportResults) (b : ImportBundle) :
    ∃ ext, (importBundle importerId now db res b).2.skippedUsers =
      res.skippedUsers ++ ext := by
  unfold importBundle
  by_cases hv : (jsStrFalsy b.title = true ∨ b.participants = none ∨ b.messages = none)
  · rw [if_pos hv]
    exact ⟨[], by simp⟩
  · rw [if_neg hv]
    dsimp only
    rcases participantLoop_skipped_ext (b.participants.getD []) db res [] none with ⟨ext, hext⟩
    by_cases hids :
        (participantLoop db res [] none (b.participants.getD [])).2.2.1.isEmpty = true
    · rw [if_pos hids]
      exact ⟨ext, hext⟩
    · rw [if_neg hids]
      exact ⟨ext, hext⟩

/-- Every user one bundle reports as created is present (by e-mail) in the
resulting users table, unless already in the incoming report. -/
theorem importBundle_created_mem (importerId : Nat) (now : String) (db : Db)
    (res : ImportResults) (b : ImportBundle) (e r : String)
    (hmem : (e, r) ∈ (importBundle importerId now db res b).2.createdUsers) :
    (e, r) ∈ res.createdUsers ∨
      ∃ u ∈ (importBundle importerId now db res b).1.users, u.email = e := by
  revert hmem
  unfold importBundle
  by_cases hv : (jsStrFalsy b.title = true ∨ b.participants = none ∨ b.messages = none)
  · rw [if_pos hv]
    intro hmem
    exact Or.inl (by simpa using hmem)
  · rw [if_neg hv]
    dsimp only
    by_cases hids :
        (participantLoop db res [] none (b.participants.getD [])).2.2.1.isEmpty = true
    · rw [if_pos hids]
      intro hmem
      exact participantLoop_created_mem (b.participants.getD []) db res [] none e r hmem
    · rw [if_neg hids]
      intro hmem
      rcases participantLoop_created_mem (b.participants.getD []) db res [] none e r
          (by simpa using hmem) with hin | ⟨u, hu, he⟩
      · exact Or.inl hin
      · right
        refine ⟨u, ?_, he⟩
        simp only [addConversationMetadata, foldl_addParticipant_users, createConversation]
        exact hu

/-- A participant e-mail that already has a user row is reported by the
bundle as skipped with reason "User already exists". -/
theorem importBundle_skips (importerId : Nat) (now : String) (db : Db)
    (res : ImportResults) (b : ImportBundle) (e : String)
    (hvalid : bundleValid b)
    (hex : ∃ u ∈ db.users, u.email = e)
    (hpe : e ∈ bundleEmails b) :
    (e, "User already exists") ∈ (importBundle importerId now db res b).2.skippedUsers := by
  unfold importBundle
  rw [if_neg hvalid]
  dsimp only
  have hskip := participantLoop_skips (b.participants.getD []) db res [] none e hex hpe
  by_cases hids :
      (participantLoop db res [] none (b.participants.getD [])).2.2.1.isEmpty = true
  · rw [if_pos hids]
    exact hskip
  · rw [if_neg hids]
    exact hskip

/-- Every created-user entry of one bundle names one of its participants (or
was already in the incoming report), and the bundle passed validation. -/
theorem importBundle_created_src (importerId : Nat) (now : String) (db : Db)
    (res : ImportResults) (b : ImportBundle) (e r : String)
    (hmem : (e, r) ∈ (importBundle importerId now db res b).2.createdUsers) :
    (e, r) ∈ res.createdUsers ∨ (bundleValid b ∧ e ∈ bundleEmails b) := by
  revert hmem
  unfold importBundle
  by_cases hv : (jsStrFalsy b.title = true ∨ b.participants = none ∨ b.messages = none)
  · rw [if_pos hv]
    intro hmem
    exact Or.inl (by simpa using hmem)
  · rw [if_neg hv]
    dsimp only
    by_cases hids :
        (participantLoop db res [] none (b.participants.getD [])).2.2.1.isEmpty = true
    · rw [if_pos hids]
      intro hmem
      rcases participantLoop_created_src (b.participants.getD []) db res [] none e r hmem with
        hin | hin
      · exact Or.inl hin
      · exact Or.inr ⟨hv, hin⟩
    · rw [if_neg hids]
      intro hmem
      rcases participantLoop_created_src (b.participants.getD []) db res [] none e r
          (by simpa using hmem) with hin | hin
      · exact Or.inl hin
      · exact Or.inr ⟨hv, hin⟩

/-- One bundle preserves distinctness of user e-mails. -/
theorem importBundle_nodup (importerId : Nat) (now : String) (db : Db)
    (res : ImportResults) (b : ImportBundle)
    (hn : (db.users.map (fun u => u.email)).Nodup) :
    ((importBundle importerId now db res b).1.users.map (fun u => u.email)).Nodup := by
  unfold importBundle
  by_cases hv : (jsStrFalsy b.title = true ∨ b.participants = none ∨ b.messages = none)
  · rw [if_pos hv]
    exact hn
  · rw [if_neg hv]
    dsimp only
    have hn2 := participantLoop_nodup (b.participants.getD []) db res [] none hn
    by_cases hids :
        (participantLoop db res [] none (b.participants.getD [])).2.2.1.isEmpty = true
    · rw [if_pos hids]
      exact hn2
    · rw [if_neg hids]
      simp only [addConversationMetadata, foldl_addParticipant_users, createConversation]
      exact hn2

/-- A whole run only appends to the users table. -/
theorem importConversations_users_ext (bs : List ImportBundle) :
    ∀ importerId now db res,
      ∃ ext, (importConversations importerId now db res bs).1.users = db.users ++ ext := by
  induction bs with
  | nil =>
    intro importerId now db res
    exact ⟨[], by simp [importConversations]⟩
  | cons b rest ih =>
    intro importerId now db res
    simp only [importConversations]
    rcases importBundle_users_ext importerId now db res b with ⟨e1, h1⟩
    rcases ih importerId now (importBundle importerId now db res b).1
        (importBundle importerId now db res b).2 with ⟨e2, h2⟩
    exact ⟨e1 ++ e2, by rw [h2, h1, List.append_assoc]⟩

/-- A whole run only appends to the skipped-users report. -/
theorem importConversations_skipped_ext (bs : List ImportBundle) :
    ∀ importerId now db res,
      ∃ ext, (importConversations importerId now db res bs).2.skippedUsers =
        res.skippedUsers ++ ext := by
  induction bs with
  | nil =>
    intro importerId now db res
    exact ⟨[], by simp [importConversations]⟩
  | cons b rest ih =>
    intro importerId now db res
    simp only [importConversations]
    rcases importBundle_skipped_ext importerId now db res b with ⟨e1, h1⟩
    rcases ih importerId now (importBundle importerId now db res b).1
        (importBundle importerId now db res b).2 with ⟨e2, h2⟩
    exact ⟨e1 ++ e2, by rw [h2, h1, List.append_assoc]⟩

/-- Every user a run reports as created is present (by e-mail) in the
resulting users table, unless already in the incoming report. -/
theorem importConversations_created_mem (bs : List ImportBundle) :
    ∀ importerId now db res e r,
      (e, r) ∈ (importConversations importerId now db res bs).2.createdUsers →
      (e, r) ∈ res.createdUsers ∨
        ∃ u ∈ (importConversations importerId now db res bs).1.users, u.email = e := by
  induction bs with
  | nil =>
    intro importerId now db res e r hmem
    exact Or.inl (by simpa [importConversations] using hmem)
  | cons b rest ih =>
    intro importerId now db res e r hmem
    simp only [importConversations] at hmem ⊢
    rcases ih importerId now (importBundle importerId now db res b).1
        (importBundle importerId now db res b).2 e r hmem with hin | hin
    · rcases importBundle_created_mem importerId now db res b e r hin with hin2 | ⟨u, hu, he⟩
      · exact Or.inl hin2
      · right
        rcases importConversations_users_ext rest importerId now
            (importBundle importerId now db res b).1
            (importBundle importerId now db res b).2 with ⟨ext, hext⟩
        exact ⟨u, by rw [hext]; exact List.mem_append_left _ hu, he⟩
    · exact Or.inr hin

/-- A user e-mail present in the store and appearing among the participants
of some valid bundle of the list is reported as skipped with reason
"User already exists". -/
theorem importConversations_skips (bs : List ImportBundle) :
    ∀ importerId now db res e,
      (∃ u ∈ db.users, u.email = e) →
      (∃ b ∈ bs, bundleValid b ∧ e ∈ bundleEmails b) →
      (e, "User already exists") ∈
        (importConversations importerId now db res bs).2.skippedUsers := by
  induction bs with
  | nil =>
    intro importerId now db res e _ hb
    rcases hb with ⟨b, hb, _⟩
    cases hb
  | cons b rest ih =>
    intro importerId now db res e hex hb
    simp only [importConversations]
    rcases hb with ⟨b2, hb2, hval, hpe⟩
    rcases List.mem_cons.mp hb2 with rfl | hb3
    · have hskip := importBundle_skips importerId now db res b2 e hval hex hpe
      rcases importConversations_skipped_ext rest importerId now
          (importBundle importerId now db res b2).1
          (importBundle importerId now db res b2).2 with ⟨ext, hext⟩
      rw [hext]
      exact List.mem_append_left _ hskip
    · refine ih importerId now _ _ e ?_ ⟨b2, hb3, hval, hpe⟩
      rcases hex with ⟨u, hu, he⟩
      rcases importBundle_users_ext importerId now db res b with ⟨ext, hext⟩
      exact ⟨u, by rw [hext]; exact List.mem_append_left _ hu, he⟩

/-- Every created-user entry of a run names a participant of some valid
bundle of the list (or was already in the incoming report). -/
theorem importConversations_created_src (bs : List ImportBundle) :
    ∀ importerId now db res e r,
      (e, r) ∈ (importConversations importerId now db res bs).2.createdUsers →
      (e, r) ∈ res.createdUsers ∨
        ∃ b ∈ bs, bundleValid b ∧ e ∈ bundleEmails b := by
  induction bs with
  | nil =>
    intro importerId now db res e r hmem
    exact Or.inl (by simpa [importConversations] using hmem)
  | cons b rest ih =>
    intro importerId now db res e r hmem
    simp only [importConversations] at hmem
    rcases ih importerId now (importBundle importerId now db res b).1
        (importBundle importerId now db res b).2 e r hmem with hin | ⟨b2, hb2, hrest⟩
    · rcases importBundle_created_src importerId now db res b e r hin with hin2 | hin2
      · exact Or.inl hin2
      · exact Or.inr ⟨b, List.mem_cons_self _ _, hin2⟩
    · exact Or.inr ⟨b2, List.mem_cons_of_mem _ hb2, hrest⟩

/-- A whole run preserves distinctness of user e-mails. -/
theorem importConversations_nodup (bs : List ImportBundle) :
    ∀ importerId now db res,
      (db.users.map (fun u => u.email)).Nodup →
      ((importConversations importerId now db res bs).1.users.map (fun u => u.email)).Nodup := by
  induction bs with
  | nil =>
    intro importerId now db res hn
    simpa [importConversations] using hn
  | cons b rest ih =>
    intro importerId now db res hn
    simp only [importConversations]
    exact ih importerId now _ _ (importBundle_nodup importerId now db res b hn)

/-- In a users table with pairwise-distinct e-mails, an e-mail that occurs
occurs on exactly one row. -/
theorem count_one_of_nodup_mem (l : List User) (e : String) :
    (l.map (fun u => u.email)).Nodup →
    (∃ u ∈ l, u.email = e) →
    (l.filter (fun u => u.email = e)).length = 1 := by
  induction l with
  | nil =>
    intro _ hex
    rcases hex with ⟨u, hu, _⟩
    cases hu
  | cons u rest ih =>
    intro hn hex
    rw [List.map_cons, List.nodup_cons] at hn
    by_cases he : u.email = e
    · rw [List.filter_cons_of_pos (by simp [he])]
      have hnil : rest.filter (fun v => v.email = e) = [] := by
        rw [List.filter_eq_nil_iff]
        intro v hv
        simp only [decide_eq_true_eq]
        intro hve
        apply hn.1
        rw [he, ← hve]
        exact List.mem_map_of_mem _ hv
      rw [hnil]
      rfl
    · rw [List.filter_cons_of_neg (by simp [he])]
      refine ih hn.2 ?_
      rcases hex with ⟨v, hv, hve⟩
      rcases List.mem_cons.mp hv with rfl | hv2
      · exact absurd hve he
      · exact ⟨v, hv2, hve⟩

/-- Claim C6: running the shared routine twice on the same bundle list over
a store with pairwise-distinct user e-mails, every participant e-mail whose
user the first run created is reported by the second run as skipped with
reason "User already exists", and after both runs the users table holds
exactly one row with that e-mail. -/
theorem import_twice_users_idempotent (importerId1 importerId2 : Nat)
    (now1 now2 : String) (db : Db) (bundles : List ImportBundle) (email role : String)
    (hnodup : (db.users.map (fun u => u.email)).Nodup)
    (hcreated : (email, role) ∈
      (importConversations importerId1 now1 db emptyImportResults bundles).2.createdUsers) :
    (email, "User already exists") ∈
      (importConversations importerId2 now2
        (importConversations importerId1 now1 db emptyImportResults bundles).1
        emptyImportResults bundles).2.skippedUsers ∧
    ((importConversations importerId2 now2
        (importConversations importerId1 now1 db emptyImportResults bundles).1
        emptyImportResults bundles).1.users.filter
      (fun u => u.email = email)).length = 1 := by
  have hex1 : ∃ u ∈ (importConversations importerId1 now1 db emptyImportResults bundles).1.users,
      u.email = email := by
    rcases importConversations_created_mem bundles importerId1 now1 db emptyImportResults
        email role hcreated with hin | hin
    · simp [emptyImportResults] at hin
    · exact hin
  have hsrc : ∃ b ∈ bundles, bundleValid b ∧ email ∈ bundleEmails b := by
    rcases importConversations_created_src bundles importerId1 now1 db emptyImportResults
        email role hcreated with hin | hin
    · simp [emptyImportResults] at hin
    · exact hin
  constructor
  · exact importConversations_skips bundles importerId2 now2 _ emptyImportResults email hex1 hsrc
  · have hn2 := importConversations_nodup bundles importerId2 now2
      (importConversations importerId1 now1 db emptyImportResults bundles).1 emptyImportResults
      (importConversations_nodup bundles importerId1 now1 db emptyImportResults hnodup)
    have hex2 : ∃ u ∈ (importConversations importerId2 now2
        (importConversations importerId1 now1 db emptyImportResults bundles).1
        emptyImportResults bundles).1.users, u.email = email := by
      rcases hex1 with ⟨u, hu, he⟩
      rcases importConversations_users_ext bundles importerId2 now2
          (importConversations importerId1 now1 db emptyImportResults bundles).1
          emptyImportResults with ⟨ext, hext⟩
      exact ⟨u, by rw [hext]; exact List.mem_append_left _ hu, he⟩
    exact count_one_of_nodup_mem _ email hn2 hex2

/-- A one-participant bundle used by the C6 witness. -/
def carolBundle : ImportBundle :=
  { source := some "rocketchat", source_id := some "room1", title := some "Checkup",
    type := some "1toN",
    participants := some [⟨"carol", "Carol", "carol@x.org", "patient"⟩],
    messages := some [], message_count := some 0 }

/-- Witness for C6: the run on an empty store creates carol; the second run
skips her and the store holds one carol row. -/
theorem import_twice_users_idempotent_witness :
    ("carol@x.org", "User already exists") ∈
      (importConversations 2 "2025-03-06 09:00:00"
        (importConversations 1 "2025-03-05 09:00:00" emptyDb emptyImportResults
          [carolBundle]).1
        emptyImportResults [carolBundle]).2.skippedUsers ∧
    ((importConversations 2 "2025-03-06 09:00:00"
        (importConversations 1 "2025-03-05 09:00:00" emptyDb emptyImportResults
          [carolBundle]).1
        emptyImportResults [carolBundle]).1.users.filter
      (fun u => u.email = "carol@x.org")).length = 1 :=
  import_twice_users_idempotent 1 2 "2025-03-05 09:00:00" "2025-03-06 09:00:00" emptyDb
    [carolBundle] "carol@x.org" "patient" (by decide) (by decide)

/-- Claim C5 (amended): for a bundle that passes validation and resolves at
least one participant, the created conversation's assigned-responder id is
the id of the LAST participant of the bundle's list that resolved to a
doctor-role user (none when no participant resolves to a doctor) — the loop
overwrites the tracked doctor on every doctor-role participant rather than
keeping the first. -/
theorem import_assigned_doctor_is_last_responder (importerId : Nat) (now : String)
    (db : Db) (res : ImportResults) (b : ImportBundle) (ps : List ImportParticipant)
    (hps : b.participants = some ps)
    (htitle : ¬ jsStrFalsy b.title = true)
    (hmsgs : ¬ b.messages = none)
    (hne : ¬ resolvedUsers db ps = []) :
    ∃ conv,
      (importBundle importerId now db res b).1.conversations = db.conversations ++ [conv] ∧
      conv.assigned_doctor_id =
        ((resolvedUsers db ps).reverse.find? (fun u => u.role = .doctor)).map
          (fun u => u.id) := by
  have hvalid : ¬ (jsStrFalsy b.title = true ∨ b.participants = none ∨ b.messages = none) := by
    rintro (h | h | h)
    · exact htitle h
    · rw [hps] at h
      cases h
    · exact hmsgs h
  unfold importBundle
  rw [if_neg hvalid]
  dsimp only
  have hgetD : b.participants.getD [] = ps := by
    rw [hps]
    rfl
  rw [hgetD]
  have hids : (participantLoop db res [] none ps).2.2.1 =
      (resolvedUsers db ps).map (fun u => u.id) := by
    rw [participantLoop_ids]
    simp
  have hidsne : ¬ (participantLoop db res [] none ps).2.2.1.isEmpty = true := by
    rw [hids]
    simp only [List.isEmpty_iff, List.map_eq_nil_iff]
    exact hne
  rw [if_neg hidsne]
  refine ⟨{ id := (participantLoop db res [] none ps).1.nextConversationId,
            title := b.title.getD "",
            type := if b.type = some "1to1" then ConversationType.one_to_one
              else ConversationType.one_to_many,
            creator_id := (participantLoop db res [] none ps).2.2.1.headD 0,
            status := .active,
            thread_id := "demo_thread_" ++
              toString (participantLoop db res [] none ps).1.nextConversationId,
            assigned_doctor_id := (participantLoop db res [] none ps).2.2.2,
            created_at := now }, ?_, ?_⟩
  · simp only [addConversationMetadata, foldl_addParticipant_conversations, createConversation]
    rw [(participantLoop_db_other ps db res [] none).1]
  · show (participantLoop db res [] none ps).2.2.2 = _
    rw [participantLoop_docId, foldl_doctor_track]
    cases hf : (resolvedUsers db ps).reverse.find? (fun u => u.role = .doctor) with
    | some u => rfl
    | none => rfl

/-- A store already holding two doctor users, for the C5 counterexample. -/
def dbTwoDoctors : Db :=
  { users := [⟨1, "alice@hospital.org", .doctor, "Alice"⟩,
              ⟨2, "bob@hospital.org", .doctor, "Bob"⟩],
    conversations := [], participants := [], metadata := [], attachments := [],
    nextUserId := 3, nextConversationId := 1, nextAttachmentId := 1 }

/-- A bundle whose two participants resolve to the two doctors, in order
Alice then Bob. -/
def twoDoctorBundle : ImportBundle :=
  { source := some "rocketchat", source_id := some "r1", title := some "Ward round",
    type := some "1to1",
    participants := some [⟨"alice", "Alice", "alice@hospital.org", "doctor"⟩,
                          ⟨"bob", "Bob", "bob@hospital.org", "doctor"⟩],
    messages := some [⟨"m1", "hello"⟩], message_count := some 1 }

/-- Counterexample to C5 as stated: with two doctor participants the created
conversation is assigned doctor 2 (Bob, the last), while the first
participant resolving to a doctor is Alice with id 1. -/
theorem import_assigned_doctor_counterexample :
    ((importConversations 9 "2025-03-05 09:00:00" dbTwoDoctors emptyImportResults
        [twoDoctorBundle]).1.conversations.map (fun c => c.assigned_doctor_id)) = [some 2] ∧
    ((resolvedUsers dbTwoDoctors (twoDoctorBundle.participants.getD [])).find?
        (fun u => u.role = .doctor)).map (fun u => u.id) = some 1 ∧
    ¬ (some 2 : Option Nat) = some 1 := by
  decide

/-- Witness for the amended C5 theorem at the two-doctor input: the created
conversation carries the id of the last doctor participant. -/
theorem import_assigned_doctor_is_last_responder_witness :
    ∃ conv,
      (importBundle 9 "2025-03-05 09:00:00" dbTwoDoctors emptyImportResults
        twoDoctorBundle).1.conversations = dbTwoDoctors.conversations ++ [conv] ∧
      conv.assigned_doctor_id =
        ((resolvedUsers dbTwoDoctors
            [⟨"alice", "Alice", "alice@hospital.org", "doctor"⟩,
             ⟨"bob", "Bob", "bob@hospital.org", "doctor"⟩]).reverse.find?
          (fun u => u.role = .doctor)).map (fun u => u.id) :=
  import_assigned_doctor_is_last_responder 9 "2025-03-05 09:00:00" dbTwoDoctors
    emptyImportResults twoDoctorBundle
    [⟨"alice", "Alice", "alice@hospital.org", "doctor"⟩,
     ⟨"bob", "Bob", "bob@hospital.org", "doctor"⟩]
    rfl (by decide) (by decide) (by decide)

end ACS
